import Mathlib

/-!
Verification of the Mattermost message-ingestion and response-dispatch pipeline
(`src/agnoteamost/interfaces/mattermost/`): shallow embedding of
`mattermost.py` (`_handle_posted_event`, `_process_message`, `_send_response`,
`_chunk_message`), `router.py` (outgoing-webhook and slash-command handlers)
and `security.py` (`validate_mattermost_token`).

Message text is modelled as `List Char`; identifiers (user, channel, post,
session) as `String`.  Python string library calls used by the source
(`rfind`, `lstrip`, `strip`, `replace`, `in`) are embedded below with their
documented semantics.  The `while` loop of `_chunk_message` and the scanning
loop of `str.replace` are embedded with an explicit fuel argument; the fuel
`s.length` suffices whenever the Python loop terminates, and fuel-indifference
is proved where termination is claimed.
-/

/-- Whitespace per Python `str.isspace` on ASCII, as used by `lstrip`/`strip`. -/
def isPySpace (c : Char) : Bool :=
  c == ' ' || c == '\t' || c == '\n' || c == '\r' || c == '\x0b' || c == '\x0c'

/-- `matchesAt hay pat i` holds when `pat` occurs in `hay` starting at index `i`. -/
def matchesAt (hay pat : List Char) (i : Nat) : Bool :=
  (hay.drop i).take pat.length == pat

/-- Python `hay.rfind(pat)`: the greatest index at which `pat` occurs in `hay`,
or `-1` when there is no occurrence. -/
def pyRfind (hay pat : List Char) : Int :=
  let k := Nat.findGreatest (fun i => matchesAt hay pat i = true) hay.length
  if matchesAt hay pat k then (k : Int) else -1

/-- Python `pat in hay` (substring containment). -/
def pyContains (hay pat : List Char) : Bool :=
  decide (0 ≤ pyRfind hay pat)

/-- Python `s.lstrip()`. -/
def pyLstrip (s : List Char) : List Char := s.dropWhile isPySpace

/-- Python `s.rstrip()`. -/
def pyRstrip (s : List Char) : List Char := (s.reverse.dropWhile isPySpace).reverse

/-- Python `s.strip()`. -/
def pyStrip (s : List Char) : List Char := pyRstrip (pyLstrip s)

/-- Scanning loop of Python `s.replace(pat, "")`: drop `pat` where it matches,
otherwise keep one character and continue.  Fuel `s.length` is enough because
each step consumes at least one character. -/
def pyReplaceGo (pat : List Char) : Nat → List Char → List Char
  | 0, s => s
  | _ + 1, [] => []
  | fuel + 1, c :: rest =>
    if (c :: rest).take pat.length == pat then pyReplaceGo pat fuel ((c :: rest).drop pat.length)
    else c :: pyReplaceGo pat fuel rest

/-- Python `s.replace(pat, "")` (all occurrences removed). -/
def pyReplace (s pat : List Char) : List Char :=
  if pat.isEmpty then s else pyReplaceGo pat s.length s

/-- Scanning loop of Python `s.replace(pat, "", 1)`. -/
def pyReplaceFirstGo (pat : List Char) : Nat → List Char → List Char
  | 0, s => s
  | _ + 1, [] => []
  | fuel + 1, c :: rest =>
    if (c :: rest).take pat.length == pat then (c :: rest).drop pat.length
    else c :: pyReplaceFirstGo pat fuel rest

/-- Python `s.replace(pat, "", 1)` (first occurrence removed). -/
def pyReplaceFirst (s pat : List Char) : List Char :=
  if pat.isEmpty then s else pyReplaceFirstGo pat s.length s

/-- The break patterns tried, in order, by `_chunk_message`. -/
def dnlPat : List Char := ['\n', '\n']

/-- Single-newline break pattern of `_chunk_message`. -/
def nlPat : List Char := ['\n']

/-- Space break pattern of `_chunk_message`. -/
def spacePat : List Char := [' ']

/-- Split-point search of `_chunk_message` (mattermost.py lines 343-349):
`split_point = max_len; for char in ["\n\n", "\n", " "]: last_break =
message[:split_point].rfind(char); if last_break > 0: split_point =
last_break; break`.  `pre` is `message[:max_len]`. -/
def find_split_point (pre : List Char) (maxLen : Nat) : Nat :=
  let b1 := pyRfind pre dnlPat
  if 0 < b1 then b1.toNat
  else
    let b2 := pyRfind pre nlPat
    if 0 < b2 then b2.toNat
    else
      let b3 := pyRfind pre spacePat
      if 0 < b3 then b3.toNat
      else maxLen

/-- The `while message:` loop of `_chunk_message` (mattermost.py lines 337-353),
with explicit fuel.  Fuel `message.length` suffices whenever `maxLen ≥ 1`. -/
def chunkLoop (maxLen : Nat) : Nat → List Char → List (List Char)
  | 0, _ => []
  | _ + 1, [] => []
  | fuel + 1, msg =>
    if msg.length ≤ maxLen then [msg]
    else
      let sp := find_split_point (msg.take maxLen) maxLen
      msg.take sp :: chunkLoop maxLen fuel (pyLstrip (msg.drop sp))

/-- `Mattermost._chunk_message` (mattermost.py lines 332-354). -/
def chunk_message (maxLen : Nat) (msg : List Char) : List (List Char) :=
  if msg.length ≤ maxLen then [msg] else chunkLoop maxLen msg.length msg

/-- Modelled from the spec: split-point selection read literally from spec
section 4.5 / claim C6 ("preferring to break at the last double-newline, else
last single newline, else last space strictly before the limit, else a hard
cut at the limit if no break point exists before it"): any existing break
point is used, including one at index 0. -/
def specFindSplitAny (pre : List Char) (maxLen : Nat) : Nat :=
  if 0 ≤ pyRfind pre dnlPat then (pyRfind pre dnlPat).toNat
  else if 0 ≤ pyRfind pre nlPat then (pyRfind pre nlPat).toNat
  else if 0 ≤ pyRfind pre spacePat then (pyRfind pre spacePat).toNat
  else maxLen

/-- Modelled from the spec: chunking loop using `specFindSplitAny` (spec
section 4.5 read literally), same shape as `chunkLoop` otherwise. -/
def specChunkLoop (maxLen : Nat) : Nat → List Char → List (List Char)
  | 0, _ => []
  | _ + 1, [] => []
  | fuel + 1, msg =>
    if msg.length ≤ maxLen then [msg]
    else
      let sp := specFindSplitAny (msg.take maxLen) maxLen
      msg.take sp :: specChunkLoop maxLen fuel (pyLstrip (msg.drop sp))

/-- Modelled from the spec: chunking per the literal wording of spec section
4.5 / claim C6. -/
def specChunkMessage (maxLen : Nat) (msg : List Char) : List (List Char) :=
  if msg.length ≤ maxLen then [msg] else specChunkLoop maxLen msg.length msg

/-- Outcome of one `await entity.arun(message, session_id)` call:
it may raise, return a falsy response object, or return a truthy response
whose `.content` is an optional string. -/
inductive ArunResult where
  | raises (e : List Char)
  | falsy
  | ok (content : Option (List Char))
deriving DecidableEq

/-- The configured downstream entity (agent, team or workflow): exactly one is
configured per interface instance, and all three are dispatched through the
same `arun(message, session_id)` shape. -/
abbrev Entity := List Char → String → ArunResult

/-- Post object embedded in a `posted` event (mattermost.py lines 196-201,
212-213): `message`, `channel_id`, `user_id`, `id`, `root_id`, and
`props.mentioned_ids`. -/
structure Post where
  message : List Char
  channel_id : String
  user_id : String
  id : String
  root_id : String
  mentioned_ids : List String
deriving DecidableEq

/-- A parsed `posted` stream event: the post plus `data.channel_type`. -/
structure PostedEvent where
  post : Post
  channel_type : String
deriving DecidableEq

/-- The interface state read by the posted-event pipeline: `_bot_user_id`,
`_bot_username`, `config.bot_name`, the constructor parameter
`reply_to_mentions_only` (mattermost.py line 95), the config field of the
same name (line 35, never read by the pipeline), and
`config.max_message_length`. -/
structure MMState where
  bot_user_id : Option String
  bot_username : List Char
  config_bot_name : List Char
  reply_to_mentions_only : Bool
  config_reply_to_mentions_only : Bool
  max_message_length : Nat
deriving DecidableEq

/-- One `create_post` call made by `_send_response` (mattermost.py
lines 319-326): `root_id` is present only when truthy. -/
structure OutPost where
  channel_id : String
  message : List Char
  root_id : Option String
deriving DecidableEq

/-- Observable effects of handling one posted event: the `arun` dispatch
calls `(message, session_id)` and the outbound posts created. -/
structure HandlerOutput where
  dispatches : List (List Char × String)
  posts : List OutPost
deriving DecidableEq

/-- `MattermostWebhookResponse` fields relevant to the verified properties
(router.py lines 54-62). -/
structure WebhookResponse where
  text : Option (List Char)
  response_type : String
  username : Option String
deriving DecidableEq

/-- `Mattermost._process_message` (mattermost.py lines 248-295): builds the
session id, dispatches to the configured entity, returns `response.content`
for a truthy response, `None` for a falsy one, and converts an exception into
the fallback string. -/
def process_message (entity : Entity) (message : List Char)
    (user_id channel_id thread_id : String) : Option (List Char) :=
  let _ := user_id
  let session_id := "mattermost_" ++ channel_id ++ "_" ++ thread_id
  match entity message session_id with
  | .ok c => c
  | .falsy => none
  | .raises e => some ("Sorry, I encountered an error: ".toList ++ e)

/-- Mention stripping of `_handle_posted_event` (mattermost.py line 222):
`message.replace(f"@\x7bself._bot_username\x7d", "").replace(f"@\x7bself.config.bot_name\x7d", "").strip()`. -/
def clean_message (st : MMState) (message : List Char) : List Char :=
  pyStrip (pyReplace (pyReplace message ('@' :: st.bot_username)) ('@' :: st.config_bot_name))

/-- `Mattermost._send_response` (mattermost.py lines 297-330) on the success
path: one `create_post` per chunk, in order, all to the same channel and
thread. -/
def send_response (st : MMState) (channel_id : String) (message : List Char)
    (root_id : Option String) : List OutPost :=
  (chunk_message st.max_message_length message).map (fun m => ⟨channel_id, m, root_id⟩)

/-- Self-message test of `_handle_posted_event` (mattermost.py line 204):
`user_id == self._bot_user_id`; a `str` never equals `None`. -/
def is_self_message (bot_user_id : Option String) (user_id : String) : Bool :=
  match bot_user_id with
  | some b => user_id == b
  | none => false

/-- `Mattermost._handle_posted_event` (mattermost.py lines 189-246) on an
already-parsed event, returning the observable dispatch calls and outbound
posts. -/
def handle_posted_event (st : MMState) (entity : Entity) (ev : PostedEvent) : HandlerOutput :=
  let message := ev.post.message
  let channel_id := ev.post.channel_id
  let user_id := ev.post.user_id
  let post_id := ev.post.id
  let root_id := ev.post.root_id
  if is_self_message st.bot_user_id user_id then ⟨[], []⟩
  else
    let is_dm := ev.channel_type == "D"
    let mentioned_ids := ev.post.mentioned_ids
    let is_explicit_mention :=
      match st.bot_user_id with
      | some b => !(b == "") && mentioned_ids.contains b
      | none => false
    let is_text_mention :=
      pyContains message ('@' :: st.bot_username) || pyContains message ('@' :: st.config_bot_name)
    let is_mention := is_explicit_mention || is_text_mention
    if st.reply_to_mentions_only && !is_dm && !is_mention then ⟨[], []⟩
    else
      let cm := clean_message st message
      if cm.isEmpty then ⟨[], []⟩
      else
        let thread_id := if root_id == "" then post_id else root_id
        let session_id := "mattermost_" ++ channel_id ++ "_" ++ thread_id
        let response := process_message entity cm user_id channel_id thread_id
        let posts :=
          match response with
          | some r =>
            if r.isEmpty then []
            else send_response st channel_id r (if thread_id == "" then none else some thread_id)
          | none => []
        ⟨[(cm, session_id)], posts⟩

/-- `validate_mattermost_token` (security.py lines 22-40): `False` when either
token is falsy, otherwise constant-time equality. -/
def validate_mattermost_token (request_token : Option String) (expected_token : String) : Bool :=
  match request_token with
  | none => false
  | some t => if t == "" || expected_token == "" then false else t == expected_token

/-- Trigger-word cleaning of `handle_outgoing_webhook` (router.py
lines 95-97): `message.replace(trigger_word, "", 1).strip()` when the trigger
word is truthy. -/
def webhook_clean (text : List Char) (trigger_word : Option (List Char)) : List Char :=
  match trigger_word with
  | some w => if w.isEmpty then text else pyStrip (pyReplaceFirst text w)
  | none => text

/-- `handle_outgoing_webhook` (router.py lines 78-144) as a function of the
payload fields it reads. -/
def handle_outgoing_webhook (entity : Entity) (entity_name : String)
    (channel_id post_id : String) (text : Option (List Char))
    (trigger_word : Option (List Char)) : WebhookResponse :=
  match text with
  | none => ⟨some "No message provided".toList, "in_channel", none⟩
  | some t =>
    if t.isEmpty then ⟨some "No message provided".toList, "in_channel", none⟩
    else
      let message := webhook_clean t trigger_word
      if message.isEmpty then ⟨some "Hello! How can I help you?".toList, "in_channel", none⟩
      else
        let session_id := "mattermost_" ++ channel_id ++ "_" ++ post_id
        match entity message session_id with
        | .ok c => ⟨c, "in_channel", some entity_name⟩
        | .falsy => ⟨some "I couldn\x27t generate a response.".toList, "in_channel", some entity_name⟩
        | .raises e => ⟨some ("Sorry, I encountered an error: ".toList ++ e), "ephemeral", none⟩

/-- `handle_slash_command` (router.py lines 146-216) as a function of the
form fields it reads. -/
def handle_slash_command (entity : Entity) (entity_name : String)
    (channel_id user_id : String) (command : Option (List Char))
    (text : Option (List Char)) : WebhookResponse :=
  let message := text.getD []
  if message.isEmpty then
    ⟨some ("Usage: ".toList ++ (match command with | some c => c | none => "None".toList)
        ++ " <your question>".toList), "ephemeral", none⟩
  else
    let session_id := "mattermost_" ++ channel_id ++ "_" ++ user_id
    match entity message session_id with
    | .ok c => ⟨c, "in_channel", some entity_name⟩
    | .falsy => ⟨some "I couldn\x27t generate a response.".toList, "in_channel", some entity_name⟩
    | .raises e => ⟨some ("Sorry, I encountered an error: ".toList ++ e), "ephemeral", none⟩

/-- Example interface state used by concrete scenarios: resolved bot id "B",
live and configured bot name "bot", mentions-only policy on, default maximum
message length. -/
def stEx : MMState :=
  ⟨some "B", "bot".toList, "bot".toList, true, true, 40000⟩

/-- The inbound event of the end-to-end scenario of claim C2. -/
def evEx : PostedEvent :=
  ⟨⟨"@bot hello".toList, "C1", "U1", "P1", "", []⟩, "O"⟩

/-- Entity that answers every dispatch with content "ok!". -/
def entOk : Entity := fun _ _ => .ok (some "ok!".toList)

/-- Entity that raises "boom" on every dispatch. -/
def entRaise : Entity := fun _ _ => .raises "boom".toList

/-- Event used by the C3 witness: ordinary channel, plain text, no mentions. -/
def evC3 : PostedEvent := ⟨⟨"hi there".toList, "C", "U", "P", "", []⟩, "O"⟩

/-- Event used by the C4 witness: direct channel, no mention in the text. -/
def evC4 : PostedEvent := ⟨⟨"hi".toList, "C", "U", "P", "", []⟩, "D"⟩

/-- A break point of the chunker at a positive index: the spec phrase "the
last double-newline / newline / space strictly before the limit", amended by
the counterexample to indices greater than zero. -/
def hasPosBreak (pre pat : List Char) : Prop :=
  ∃ i, 0 < i ∧ matchesAt pre pat i = true

/-- `sp` is the greatest positive index at which `pat` occurs in `pre`. -/
def greatestPosBreak (pre pat : List Char) (sp : Nat) : Prop :=
  0 < sp ∧ matchesAt pre pat sp = true ∧ ∀ j, sp < j → matchesAt pre pat j = false

/-- Amended split-point specification of claim C6: break at the greatest
positive-index double-newline; else at the greatest positive-index newline;
else at the greatest positive-index space; else hard-cut at the limit when no
positive-index break point exists. -/
def splitPointSpec (pre : List Char) (maxLen sp : Nat) : Prop :=
  (hasPosBreak pre dnlPat → greatestPosBreak pre dnlPat sp) ∧
  (¬ hasPosBreak pre dnlPat → hasPosBreak pre nlPat → greatestPosBreak pre nlPat sp) ∧
  (¬ hasPosBreak pre dnlPat → ¬ hasPosBreak pre nlPat → hasPosBreak pre spacePat →
    greatestPosBreak pre spacePat sp) ∧
  (¬ hasPosBreak pre dnlPat → ¬ hasPosBreak pre nlPat → ¬ hasPosBreak pre spacePat →
    sp = maxLen)

/-- Input refuting claim C6 as literally stated: a leading space followed by
sixty non-whitespace characters. -/
def c6input : List Char := ' ' :: List.replicate 60 'a'


/-- Parametric scenario state for the C2 end-to-end scenario: resolved self id
`b`, bot name "bot" in both the live and configured positions. -/
def stC2 (b : String) : MMState := ⟨some b, "bot".toList, "bot".toList, true, true, 40000⟩

lemma length_dropWhile_le (p : Char → Bool) (l : List Char) :
    (l.dropWhile p).length ≤ l.length := by
  induction l with
  | nil => simp
  | cons c t ih =>
    rw [List.dropWhile_cons]
    split
    · exact Nat.le_trans ih (Nat.le_succ _)
    · simp

/-- C1: a posted event authored by the resolved bot self id is dropped
unconditionally: no dispatch call and no outbound posts, for every state,
entity, policy, mention content and channel type. -/
theorem c1_self_messages_dropped (st : MMState) (entity : Entity) (ev : PostedEvent)
    (h : st.bot_user_id = some ev.post.user_id) :
    handle_posted_event st entity ev = ⟨[], []⟩ := by
  simp [handle_posted_event, is_self_message, h]

/-- Witness for C1 at a concrete self-authored event. -/
theorem c1_witness :
    stEx.bot_user_id = some "B" ∧
    handle_posted_event stEx entOk ⟨⟨"hi".toList, "C", "B", "P", "", []⟩, "O"⟩ = ⟨[], []⟩ :=
  ⟨rfl, c1_self_messages_dropped stEx entOk ⟨⟨"hi".toList, "C", "B", "P", "", []⟩, "O"⟩ rfl⟩

/-- C2 counterexample: on the end-to-end scenario event the code derives the
session key "mattermost_C1_P1"; the claimed key "stream_C1_P1" is different. -/
theorem c2_counterexample :
    (handle_posted_event stEx entOk evEx).dispatches = [("hello".toList, "mattermost_C1_P1")] ∧
    ("mattermost_C1_P1" : String) ≠ "stream_C1_P1" := by
  exact ⟨by decide, by decide⟩

/-- C2 (amended): the end-to-end scenario event, with any resolved self id
different from "U1" and bot name "bot", yields cleaned text "hello", session
key "mattermost_C1_P1", exactly one dispatch call, and one outbound post to
channel "C1" with root id "P1", for any entity reply that is non-empty and
within the configured length limit. -/
theorem c2_end_to_end_amended (b : String) (hb : b ≠ "U1") (entity : Entity) (r : List Char)
    (hent : entity "hello".toList "mattermost_C1_P1" = .ok (some r))
    (hr : r ≠ []) (hlen : r.length ≤ 40000) :
    handle_posted_event (stC2 b) entity evEx =
      ⟨[("hello".toList, "mattermost_C1_P1")], [⟨"C1", r, some "P1"⟩]⟩ := by
  have hchunk : chunk_message 40000 r = [r] := by
    unfold chunk_message
    rw [if_pos hlen]
  have hre : r.isEmpty = false := List.isEmpty_eq_false.mpr hr
  have hsm : is_self_message (some b) "U1" = false :=
    beq_eq_false_iff_ne.mpr (Ne.symm hb)
  have hp1 : (stC2 b).bot_user_id = some b := rfl
  have hp2 : (stC2 b).bot_username = "bot".toList := rfl
  have hp3 : (stC2 b).config_bot_name = "bot".toList := rfl
  have hp4 : (stC2 b).reply_to_mentions_only = true := rfl
  have hp6 : (stC2 b).max_message_length = 40000 := rfl
  have hmention : pyContains "@bot hello".toList ('@' :: "bot".toList) = true := by decide
  have hclean : clean_message (stC2 b) "@bot hello".toList = "hello".toList := by
    show pyStrip (pyReplace (pyReplace "@bot hello".toList ('@' :: "bot".toList))
      ('@' :: "bot".toList)) = "hello".toList
    decide
  have hses : ("mattermost_" ++ "C1" ++ "_" ++ "P1" : String) = "mattermost_C1_P1" := by decide
  have h2mention : pyContains ['@', 'b', 'o', 't', ' ', 'h', 'e', 'l', 'l', 'o']
      ['@', 'b', 'o', 't'] = true := by decide
  have h2clean : clean_message (stC2 b) ['@', 'b', 'o', 't', ' ', 'h', 'e', 'l', 'l', 'o'] =
      ['h', 'e', 'l', 'l', 'o'] := by
    show pyStrip (pyReplace (pyReplace ['@', 'b', 'o', 't', ' ', 'h', 'e', 'l', 'l', 'o']
      ('@' :: "bot".toList)) ('@' :: "bot".toList)) = ['h', 'e', 'l', 'l', 'o']
    decide
  have hent2 : entity ['h', 'e', 'l', 'l', 'o'] "mattermost_C1_P1" = .ok (some r) := hent
  simp [handle_posted_event, evEx, hp1, hp2, hp3, hp4, hp6, hsm, hmention, hclean,
    hses, hent2, hre, hchunk, process_message, send_response, h2mention, h2clean, hr]

/-- Witness for C2 (amended) at self id "B" and an entity answering "ok!". -/
theorem c2_witness :
    ("B" : String) ≠ "U1" ∧
    handle_posted_event (stC2 "B") entOk evEx =
      ⟨[("hello".toList, "mattermost_C1_P1")], [⟨"C1", "ok!".toList, some "P1"⟩]⟩ :=
  ⟨by decide, c2_end_to_end_amended "B" (by decide) entOk "ok!".toList rfl (by decide) (by decide)⟩

/-- C3: under the mentions-only policy, a non-direct-channel message with no
id-mention and no text-mention of either bot name is dropped: no dispatch and
no outbound posts. -/
theorem c3_mentions_only_drops_unaddressed (st : MMState) (entity : Entity) (ev : PostedEvent)
    (hpol : st.reply_to_mentions_only = true)
    (hch : ev.channel_type ≠ "D")
    (hid : ∀ b, st.bot_user_id = some b → b ∉ ev.post.mentioned_ids)
    (ht1 : pyContains ev.post.message ('@' :: st.bot_username) = false)
    (ht2 : pyContains ev.post.message ('@' :: st.config_bot_name) = false) :
    handle_posted_event st entity ev = ⟨[], []⟩ := by
  have hdm : (ev.channel_type == "D") = false := beq_eq_false_iff_ne.mpr hch
  cases hsm : is_self_message st.bot_user_id ev.post.user_id with
  | true => simp [handle_posted_event, hsm]
  | false =>
    cases hb : st.bot_user_id with
    | none => simp [handle_posted_event, hb, hsm, hdm, hpol, ht1, ht2, is_self_message]
    | some b =>
      have hmem : b ∉ ev.post.mentioned_ids := hid b hb
      rw [hb] at hsm
      simp [handle_posted_event, hb, hsm, hdm, hpol, ht1, ht2, hmem]

/-- Witness for C3 at a concrete unaddressed channel message. -/
theorem c3_witness :
    (stEx.reply_to_mentions_only = true ∧ evC3.channel_type ≠ "D" ∧
      pyContains evC3.post.message ('@' :: stEx.bot_username) = false ∧
      pyContains evC3.post.message ('@' :: stEx.config_bot_name) = false) ∧
    handle_posted_event stEx entOk evC3 = ⟨[], []⟩ :=
  ⟨⟨rfl, by decide, by decide, by decide⟩,
    c3_mentions_only_drops_unaddressed stEx entOk evC3 rfl (by decide)
      (fun b _ => List.not_mem_nil b) (by decide) (by decide)⟩

/-- C4: a direct-channel message from a non-self user whose cleaned text is
non-empty is always dispatched, whatever the mentions-only policy and the
mention content: the policy test is bypassed for direct channels. -/
theorem c4_direct_channel_bypasses_policy (st : MMState) (entity : Entity) (ev : PostedEvent)
    (hdm : ev.channel_type = "D")
    (hself : ∀ b, st.bot_user_id = some b → ev.post.user_id ≠ b)
    (hclean : clean_message st ev.post.message ≠ []) :
    (handle_posted_event st entity ev).dispatches.length = 1 := by
  have hsm : is_self_message st.bot_user_id ev.post.user_id = false := by
    cases hb : st.bot_user_id with
    | none => rfl
    | some b =>
      show (ev.post.user_id == b) = false
      exact beq_eq_false_iff_ne.mpr (hself b hb)
  have hcm : (clean_message st ev.post.message).isEmpty = false :=
    List.isEmpty_eq_false.mpr hclean
  simp [handle_posted_event, hsm, hdm, hcm]

/-- Witness for C4 at a concrete direct message without any mention. -/
theorem c4_witness :
    (evC4.channel_type = "D" ∧ stEx.reply_to_mentions_only = true ∧
      clean_message stEx evC4.post.message ≠ []) ∧
    (handle_posted_event stEx entOk evC4).dispatches.length = 1 :=
  ⟨⟨rfl, rfl, by decide⟩,
    c4_direct_channel_bypasses_policy stEx entOk evC4 rfl
      (fun b hb => by injection hb with h; subst h; decide) (by decide)⟩

/-- C7: an exception from the downstream entity is caught at the dispatch
boundary on all three paths (stream, outgoing webhook, slash command), and
the user-visible text is "Sorry, I encountered an error: " followed by the
error text. -/
theorem c7_downstream_errors_caught (entity : Entity) (e : List Char) :
    (∀ (message : List Char) (uid ch th : String),
        entity message ("mattermost_" ++ ch ++ "_" ++ th) = .raises e →
        process_message entity message uid ch th =
          some ("Sorry, I encountered an error: ".toList ++ e)) ∧
    (∀ (en ch pid : String) (t : List Char) (tw : Option (List Char)),
        t ≠ [] → webhook_clean t tw ≠ [] →
        entity (webhook_clean t tw) ("mattermost_" ++ ch ++ "_" ++ pid) = .raises e →
        handle_outgoing_webhook entity en ch pid (some t) tw =
          ⟨some ("Sorry, I encountered an error: ".toList ++ e), "ephemeral", none⟩) ∧
    (∀ (en ch uid : String) (cmd : Option (List Char)) (t : List Char),
        t ≠ [] →
        entity t ("mattermost_" ++ ch ++ "_" ++ uid) = .raises e →
        handle_slash_command entity en ch uid cmd (some t) =
          ⟨some ("Sorry, I encountered an error: ".toList ++ e), "ephemeral", none⟩) := by
  refine ⟨?_, ?_, ?_⟩
  · intro message uid ch th hent
    simp [process_message, hent]
  · intro en ch pid t tw ht hm hent
    have ht' : t.isEmpty = false := List.isEmpty_eq_false.mpr ht
    have hm' : (webhook_clean t tw).isEmpty = false := List.isEmpty_eq_false.mpr hm
    simp [handle_outgoing_webhook, ht', hm', hent]
  · intro en ch uid cmd t ht hent
    have ht' : t.isEmpty = false := List.isEmpty_eq_false.mpr ht
    simp [handle_slash_command, ht', hent]

/-- Witness for C7 at an entity that raises "boom", on all three paths. -/
theorem c7_witness :
    process_message entRaise "hi".toList "U" "C" "T" =
      some ("Sorry, I encountered an error: ".toList ++ "boom".toList) ∧
    handle_outgoing_webhook entRaise "Bot" "C" "P" (some "hi".toList) none =
      ⟨some ("Sorry, I encountered an error: ".toList ++ "boom".toList), "ephemeral", none⟩ ∧
    handle_slash_command entRaise "Bot" "C" "U" (some "/ask".toList) (some "hi".toList) =
      ⟨some ("Sorry, I encountered an error: ".toList ++ "boom".toList), "ephemeral", none⟩ :=
  ⟨(c7_downstream_errors_caught entRaise "boom".toList).1 "hi".toList "U" "C" "T" rfl,
   (c7_downstream_errors_caught entRaise "boom".toList).2.1 "Bot" "C" "P" "hi".toList none
     (by decide) (by decide) rfl,
   (c7_downstream_errors_caught entRaise "boom".toList).2.2 "Bot" "C" "U"
     (some "/ask".toList) "hi".toList (by decide) rfl⟩

/-- C8: token validation succeeds exactly when the request token is present,
both tokens are non-empty, and they are equal; any empty or missing side
(including both empty) fails. -/
theorem c8_token_validation_iff (request_token : Option String) (expected_token : String) :
    validate_mattermost_token request_token expected_token = true ↔
      ∃ t, request_token = some t ∧ t ≠ "" ∧ expected_token ≠ "" ∧ t = expected_token := by
  cases request_token with
  | none => simp [validate_mattermost_token]
  | some t =>
    by_cases h1 : t = ""
    · simp [validate_mattermost_token, h1]
    · by_cases h2 : expected_token = ""
      · simp [validate_mattermost_token, h1, h2]
      · simp [validate_mattermost_token, h1, h2]

/-- C10: the pipeline never reads `config.reply_to_mentions_only`: two states
differing only in that field handle every posted event identically (same
dispatch calls, same outbound posts). -/
theorem c10_config_policy_field_never_read (st : MMState) (entity : Entity) (ev : PostedEvent)
    (b : Bool) :
    handle_posted_event { st with config_reply_to_mentions_only := b } entity ev =
      handle_posted_event st entity ev := by
  cases st
  rfl

lemma matchesAt_lt_length {hay pat : List Char} {i : Nat} (hpat : pat ≠ [])
    (h : matchesAt hay pat i = true) : i < hay.length := by
  by_contra hge
  push_neg at hge
  unfold matchesAt at h
  rw [List.drop_eq_nil_of_le hge] at h
  simp at h
  exact hpat h

lemma pyRfind_toNat_le (hay pat : List Char) : (pyRfind hay pat).toNat ≤ hay.length := by
  unfold pyRfind
  by_cases hm : matchesAt hay pat
      (Nat.findGreatest (fun i => matchesAt hay pat i = true) hay.length) = true
  · rw [if_pos hm]
    simpa using Nat.findGreatest_le (P := fun i => matchesAt hay pat i = true) hay.length
  · rw [if_neg hm]
    simp

lemma toNat_pos_of_pos {b : Int} (h : 0 < b) : 1 ≤ b.toNat := by
  have h2 := Int.toNat_of_nonneg (le_of_lt h)
  omega

lemma pyRfind_pos_spec {hay pat : List Char} (hpat : pat ≠ []) (h : 0 < pyRfind hay pat) :
    0 < (pyRfind hay pat).toNat ∧ matchesAt hay pat (pyRfind hay pat).toNat = true ∧
      ∀ j, (pyRfind hay pat).toNat < j → matchesAt hay pat j = false := by
  unfold pyRfind at *
  by_cases hm : matchesAt hay pat
      (Nat.findGreatest (fun i => matchesAt hay pat i = true) hay.length) = true
  · rw [if_pos hm] at h ⊢
    simp only [Int.toNat_natCast]
    refine ⟨by exact_mod_cast h, hm, ?_⟩
    intro j hj
    by_cases hjn : j ≤ hay.length
    · have := Nat.findGreatest_is_greatest (P := fun i => matchesAt hay pat i = true) hj hjn
      exact Bool.eq_false_iff.mpr this
    · push_neg at hjn
      by_contra hc
      rw [Bool.not_eq_false] at hc
      exact absurd (matchesAt_lt_length hpat hc) (by omega)
  · rw [if_neg hm] at h
    exact absurd h (by decide)

lemma pyRfind_not_pos {hay pat : List Char} (hpat : pat ≠ []) (h : ¬ 0 < pyRfind hay pat) :
    ∀ j, 0 < j → matchesAt hay pat j = false := by
  intro j hj
  by_contra hc
  rw [Bool.not_eq_false] at hc
  have hjlen : j ≤ hay.length := le_of_lt (matchesAt_lt_length hpat hc)
  unfold pyRfind at h
  by_cases hm : matchesAt hay pat
      (Nat.findGreatest (fun i => matchesAt hay pat i = true) hay.length) = true
  · rw [if_pos hm] at h
    have hle := Nat.le_findGreatest (P := fun i => matchesAt hay pat i = true) hjlen hc
    omega
  · exact hm (Nat.findGreatest_spec (P := fun i => matchesAt hay pat i = true) hjlen hc)

lemma find_split_point_pos (pre : List Char) (maxLen : Nat) (hM : 1 ≤ maxLen) :
    1 ≤ find_split_point pre maxLen := by
  simp only [find_split_point]
  split_ifs with h1 h2 h3
  · exact toNat_pos_of_pos h1
  · exact toNat_pos_of_pos h2
  · exact toNat_pos_of_pos h3
  · exact hM

lemma find_split_point_le (pre : List Char) (maxLen : Nat) (hpre : pre.length ≤ maxLen) :
    find_split_point pre maxLen ≤ maxLen := by
  simp only [find_split_point]
  split_ifs <;> first
    | exact le_trans (pyRfind_toNat_le _ _) hpre
    | exact le_refl _

lemma chunkLoop_nil (maxLen fuel : Nat) : chunkLoop maxLen fuel [] = [] := by
  cases fuel <;> rfl

lemma pyLstrip_drop_length_lt (msg : List Char) (sp : Nat) (hsp : 1 ≤ sp) (hmsg : msg ≠ []) :
    (pyLstrip (msg.drop sp)).length < msg.length := by
  have h1 := length_dropWhile_le isPySpace (msg.drop sp)
  have h2 := List.length_drop sp msg
  have h3 : 0 < msg.length := List.length_pos.mpr hmsg
  unfold pyLstrip
  omega

lemma chunkLoop_chunk_le (maxLen : Nat) :
    ∀ (fuel : Nat) (msg : List Char), ∀ c ∈ chunkLoop maxLen fuel msg, c.length ≤ maxLen := by
  intro fuel
  induction fuel with
  | zero => intro msg c hc; simp [chunkLoop] at hc
  | succ f ih =>
    intro msg c hc
    cases msg with
    | nil => simp [chunkLoop] at hc
    | cons a t =>
      by_cases hle : (a :: t).length ≤ maxLen
      · simp only [chunkLoop, if_pos hle, List.mem_singleton] at hc
        subst hc
        exact hle
      · simp only [chunkLoop, if_neg hle, List.mem_cons] at hc
        rcases hc with h | h
        · subst h
          exact le_trans (List.length_take_le _ _)
            (find_split_point_le _ _ (List.length_take_le _ _))
        · exact ih _ c h

lemma chunkLoop_fuel_congr (maxLen : Nat) (hM : 1 ≤ maxLen) :
    ∀ (f1 f2 : Nat) (msg : List Char), msg.length ≤ f1 → msg.length ≤ f2 →
      chunkLoop maxLen f1 msg = chunkLoop maxLen f2 msg := by
  intro f1
  induction f1 with
  | zero =>
    intro f2 msg h1 h2
    have hmsg : msg = [] := List.eq_nil_of_length_eq_zero (Nat.le_zero.mp h1)
    subst hmsg
    rw [chunkLoop_nil, chunkLoop_nil]
  | succ f ih =>
    intro f2 msg h1 h2
    cases msg with
    | nil => rw [chunkLoop_nil, chunkLoop_nil]
    | cons a t =>
      have hf2 : 1 ≤ f2 := le_trans (by simp) h2
      obtain ⟨f2', rfl⟩ : ∃ f2', f2 = f2' + 1 := ⟨f2 - 1, by omega⟩
      by_cases hle : (a :: t).length ≤ maxLen
      · simp only [chunkLoop, if_pos hle]
      · simp only [chunkLoop, if_neg hle]
        congr 1
        have hsp := find_split_point_pos ((a :: t).take maxLen) maxLen hM
        have hlt := pyLstrip_drop_length_lt (a :: t)
          (find_split_point ((a :: t).take maxLen) maxLen) hsp (by simp)
        exact ih f2' _ (by simp at hlt h1 ⊢; omega) (by simp at hlt h2 ⊢; omega)

lemma chunkLoop_chunks_ne_nil (maxLen : Nat) (hM : 1 ≤ maxLen) :
    ∀ (fuel : Nat) (msg : List Char), ∀ c ∈ chunkLoop maxLen fuel msg, c ≠ [] := by
  intro fuel
  induction fuel with
  | zero => intro msg c hc; simp [chunkLoop] at hc
  | succ f ih =>
    intro msg c hc
    cases msg with
    | nil => simp [chunkLoop] at hc
    | cons a t =>
      by_cases hle : (a :: t).length ≤ maxLen
      · simp only [chunkLoop, if_pos hle, List.mem_singleton] at hc
        subst hc
        simp
      · simp only [chunkLoop, if_neg hle, List.mem_cons] at hc
        rcases hc with h | h
        · subst h
          have hsp := find_split_point_pos ((a :: t).take maxLen) maxLen hM
          have : 0 < ((a :: t).take
              (find_split_point ((a :: t).take maxLen) maxLen)).length := by
            rw [List.length_take]
            simp
            omega
          exact List.length_pos.mp this
        · exact ih _ c h

lemma chunkLoop_of_le (maxLen fuel : Nat) (msg : List Char) (hmsg : msg ≠ [])
    (hle : msg.length ≤ maxLen) (hf : 1 ≤ fuel) : chunkLoop maxLen fuel msg = [msg] := by
  obtain ⟨f', rfl⟩ : ∃ f', fuel = f' + 1 := ⟨fuel - 1, by omega⟩
  cases msg with
  | nil => exact absurd rfl hmsg
  | cons b u => simp only [chunkLoop, if_pos hle]

lemma chunkLoop_reconstruct (maxLen : Nat) (hM : 1 ≤ maxLen) :
    ∀ (fuel : Nat) (msg : List Char), msg.length ≤ fuel →
      ∃ wss : List (List Char),
        wss.length = (chunkLoop maxLen fuel msg).length ∧
        (∀ w ∈ wss, ∀ ch ∈ w, isPySpace ch = true) ∧
        (List.zipWith (fun ck w => ck ++ w) (chunkLoop maxLen fuel msg) wss).flatten = msg := by
  intro fuel
  induction fuel with
  | zero =>
    intro msg h
    have hmsg : msg = [] := List.eq_nil_of_length_eq_zero (Nat.le_zero.mp h)
    subst hmsg
    exact ⟨[], by simp [chunkLoop], by simp, by simp [chunkLoop]⟩
  | succ f ih =>
    intro msg hlen
    cases msg with
    | nil => exact ⟨[], by simp [chunkLoop_nil], by simp, by simp [chunkLoop_nil]⟩
    | cons a t =>
      by_cases hle : (a :: t).length ≤ maxLen
      · refine ⟨[[]], ?_, ?_, ?_⟩
        · simp only [chunkLoop, if_pos hle]
          rfl
        · simp
        · simp only [chunkLoop, if_pos hle]
          simp
      · have hsp := find_split_point_pos ((a :: t).take maxLen) maxLen hM
        have hlt := pyLstrip_drop_length_lt (a :: t)
          (find_split_point ((a :: t).take maxLen) maxLen) hsp (by simp)
        obtain ⟨wss, hw1, hw2, hw3⟩ :=
          ih (pyLstrip ((a :: t).drop (find_split_point ((a :: t).take maxLen) maxLen)))
            (by simp only [List.length_cons] at hlt hlen ⊢; omega)
        refine ⟨((a :: t).drop
            (find_split_point ((a :: t).take maxLen) maxLen)).takeWhile isPySpace :: wss,
          ?_, ?_, ?_⟩
        · simp only [chunkLoop, if_neg hle]
          simp [hw1]
        · intro w hw
          rcases List.mem_cons.mp hw with h | h
          · subst h
            intro ch hch
            exact List.mem_takeWhile_imp hch
          · exact hw2 w h
        · simp only [chunkLoop, if_neg hle, List.zipWith_cons_cons, List.flatten_cons]
          rw [List.append_assoc, hw3]
          unfold pyLstrip
          rw [List.takeWhile_append_dropWhile, List.take_append_drop]

lemma chunk_message_unfold (maxLen : Nat) (msg : List Char) (hM : 1 ≤ maxLen)
    (h : maxLen < msg.length) :
    chunk_message maxLen msg =
      msg.take (find_split_point (msg.take maxLen) maxLen) ::
        (if pyLstrip (msg.drop (find_split_point (msg.take maxLen) maxLen)) = [] then []
         else chunk_message maxLen
           (pyLstrip (msg.drop (find_split_point (msg.take maxLen) maxLen)))) := by
  have hnle : ¬ msg.length ≤ maxLen := by omega
  rw [chunk_message, if_neg hnle]
  cases msg with
  | nil => simp at h
  | cons a t =>
    have hsp := find_split_point_pos ((a :: t).take maxLen) maxLen hM
    have hlt := pyLstrip_drop_length_lt (a :: t)
      (find_split_point ((a :: t).take maxLen) maxLen) hsp (by simp)
    show chunkLoop maxLen (t.length + 1) (a :: t) = _
    simp only [chunkLoop, if_neg hnle]
    congr 1
    set rest := pyLstrip ((a :: t).drop (find_split_point ((a :: t).take maxLen) maxLen))
      with hrest
    by_cases hr : rest = []
    · rw [if_pos hr, hr, chunkLoop_nil]
    · rw [if_neg hr]
      have hrl : rest.length ≤ t.length := by
        simp only [List.length_cons] at hlt
        omega
      have hrpos : 0 < rest.length := List.length_pos.mpr hr
      by_cases hrm : rest.length ≤ maxLen
      · rw [chunk_message, if_pos hrm]
        exact chunkLoop_of_le maxLen t.length rest hr hrm (by omega)
      · rw [chunk_message, if_neg hrm]
        exact chunkLoop_fuel_congr maxLen hM t.length rest.length rest hrl (le_refl _)

lemma beq_replicate_cons_false {c d : Char} (hcd : c ≠ d) (m : Nat) (t : List Char) :
    ((List.replicate m c : List Char) == d :: t) = false := by
  rw [beq_eq_false_iff_ne]
  intro h
  cases m with
  | zero => simp at h
  | succ k =>
    rw [List.replicate_succ] at h
    injection h with h1 h2
    exact hcd h1

lemma pyRfind_replicate_neg {c d : Char} (hcd : c ≠ d) (t : List Char) (n : Nat) :
    pyRfind (List.replicate n c) (d :: t) = -1 := by
  have hall : ∀ i, matchesAt (List.replicate n c) (d :: t) i = false := by
    intro i
    unfold matchesAt
    rw [List.drop_replicate, List.take_replicate]
    exact beq_replicate_cons_false hcd _ t
  simp only [pyRfind]
  rw [if_neg (by simp [hall])]

lemma dropWhile_replicate_not {p : Char → Bool} {c : Char} (hc : p c = false) (n : Nat) :
    List.dropWhile p (List.replicate n c) = List.replicate n c := by
  cases n with
  | zero => simp
  | succ k =>
    rw [List.replicate_succ, List.dropWhile_cons, hc]
    simp

lemma chunk_replicate_eval {c : Char} (hc : isPySpace c = false) :
    chunk_message 50 (List.replicate 100 c) = [List.replicate 50 c, List.replicate 50 c] := by
  have hcn : c ≠ '\n' := by intro h; rw [h] at hc; exact absurd hc (by decide)
  have hcs : c ≠ ' ' := by intro h; rw [h] at hc; exact absurd hc (by decide)
  have htake : (List.replicate 100 c).take 50 = List.replicate 50 c := by
    rw [List.take_replicate]
    norm_num
  have hdrop : (List.replicate 100 c).drop 50 = List.replicate 50 c := by
    rw [List.drop_replicate]
  have hfsp : find_split_point (List.replicate 50 c) 50 = 50 := by
    simp only [find_split_point, dnlPat, nlPat, spacePat]
    rw [show (['\n', '\n'] : List Char) = '\n' :: ['\n'] from rfl,
      show (['\n'] : List Char) = '\n' :: [] from rfl,
      show ([' '] : List Char) = ' ' :: [] from rfl,
      pyRfind_replicate_neg hcn, pyRfind_replicate_neg hcn, pyRfind_replicate_neg hcs]
    norm_num
  have hl : pyLstrip (List.replicate 50 c) = List.replicate 50 c :=
    dropWhile_replicate_not hc 50
  have hne : (List.replicate 50 c) ≠ [] := by simp
  have h100 : (50 : Nat) < (List.replicate 100 c).length := by simp
  rw [chunk_message_unfold 50 _ (by norm_num) h100, htake, hfsp, htake, hdrop, hl,
    if_neg hne, chunk_message, if_pos (by simp : (List.replicate 50 c).length ≤ 50)]

/-- C5: every chunk is at most the limit; re-inserting the whitespace trimmed
between chunks reconstructs the original text; and a 100-character uniform
non-whitespace string at limit 50 yields at least two chunks, each at
most 50. -/
theorem c5_chunk_bounds_and_reconstruction (maxLen : Nat) (msg : List Char) (hM : 1 ≤ maxLen) :
    ((∀ ck ∈ chunk_message maxLen msg, ck.length ≤ maxLen) ∧
      ∃ wss : List (List Char),
        wss.length = (chunk_message maxLen msg).length ∧
        (∀ w ∈ wss, ∀ ch ∈ w, isPySpace ch = true) ∧
        (List.zipWith (fun ck w => ck ++ w) (chunk_message maxLen msg) wss).flatten = msg) ∧
    (∀ c : Char, isPySpace c = false →
      2 ≤ (chunk_message 50 (List.replicate 100 c)).length ∧
      ∀ ck ∈ chunk_message 50 (List.replicate 100 c), ck.length ≤ 50) := by
  refine ⟨⟨?_, ?_⟩, ?_⟩
  · intro ck hck
    rw [chunk_message] at hck
    by_cases h : msg.length ≤ maxLen
    · rw [if_pos h] at hck
      simp at hck
      subst hck
      exact h
    · rw [if_neg h] at hck
      exact chunkLoop_chunk_le maxLen _ _ ck hck
  · rw [chunk_message]
    by_cases h : msg.length ≤ maxLen
    · rw [if_pos h]
      exact ⟨[[]], by simp, by simp, by simp⟩
    · rw [if_neg h]
      exact chunkLoop_reconstruct maxLen hM msg.length msg (le_refl _)
  · intro c hc
    rw [chunk_replicate_eval hc]
    refine ⟨by simp, ?_⟩
    intro ck hck
    simp only [List.mem_cons, List.not_mem_nil, or_false] at hck
    rcases hck with h | h <;> simp [h]

/-- Witness for C5 at limit 2 and the text "ab c". -/
theorem c5_witness :
    1 ≤ 2 ∧
    (((∀ ck ∈ chunk_message 2 "ab c".toList, ck.length ≤ 2) ∧
      ∃ wss : List (List Char),
        wss.length = (chunk_message 2 "ab c".toList).length ∧
        (∀ w ∈ wss, ∀ ch ∈ w, isPySpace ch = true) ∧
        (List.zipWith (fun ck w => ck ++ w) (chunk_message 2 "ab c".toList) wss).flatten =
          "ab c".toList) ∧
    (∀ c : Char, isPySpace c = false →
      2 ≤ (chunk_message 50 (List.replicate 100 c)).length ∧
      ∀ ck ∈ chunk_message 50 (List.replicate 100 c), ck.length ≤ 50)) :=
  ⟨by decide, c5_chunk_bounds_and_reconstruction 2 "ab c".toList (by decide)⟩

lemma find_split_point_sound (pre : List Char) (maxLen : Nat) :
    splitPointSpec pre maxLen (find_split_point pre maxLen) := by
  have hdnl : dnlPat ≠ [] := by decide
  have hnl : nlPat ≠ [] := by decide
  have hspc : spacePat ≠ [] := by decide
  simp only [find_split_point]
  by_cases h1 : 0 < pyRfind pre dnlPat
  · rw [if_pos h1]
    obtain ⟨hp, hm, hmax⟩ := pyRfind_pos_spec hdnl h1
    have hhas : hasPosBreak pre dnlPat := ⟨_, hp, hm⟩
    exact ⟨fun _ => ⟨hp, hm, hmax⟩, fun hn => absurd hhas hn, fun hn _ _ => absurd hhas hn,
      fun hn _ _ => absurd hhas hn⟩
  · rw [if_neg h1]
    have hno1 : ¬ hasPosBreak pre dnlPat := by
      rintro ⟨i, hi, hm⟩
      rw [pyRfind_not_pos hdnl h1 i hi] at hm
      exact Bool.false_ne_true hm
    by_cases h2 : 0 < pyRfind pre nlPat
    · rw [if_pos h2]
      obtain ⟨hp, hm, hmax⟩ := pyRfind_pos_spec hnl h2
      have hhas : hasPosBreak pre nlPat := ⟨_, hp, hm⟩
      exact ⟨fun hd => absurd hd hno1, fun _ _ => ⟨hp, hm, hmax⟩,
        fun _ hn _ => absurd hhas hn, fun _ hn _ => absurd hhas hn⟩
    · rw [if_neg h2]
      have hno2 : ¬ hasPosBreak pre nlPat := by
        rintro ⟨i, hi, hm⟩
        rw [pyRfind_not_pos hnl h2 i hi] at hm
        exact Bool.false_ne_true hm
      by_cases h3 : 0 < pyRfind pre spacePat
      · rw [if_pos h3]
        obtain ⟨hp, hm, hmax⟩ := pyRfind_pos_spec hspc h3
        exact ⟨fun hd => absurd hd hno1, fun _ hn => absurd hn hno2,
          fun _ _ _ => ⟨hp, hm, hmax⟩, fun _ _ hn => absurd ⟨_, hp, hm⟩ hn⟩
      · rw [if_neg h3]
        have hno3 : ¬ hasPosBreak pre spacePat := by
          rintro ⟨i, hi, hm⟩
          rw [pyRfind_not_pos hspc h3 i hi] at hm
          exact Bool.false_ne_true hm
        exact ⟨fun hd => absurd hd hno1, fun _ hn => absurd hn hno2,
          fun _ _ hn => absurd hn hno3, fun _ _ _ => rfl⟩

/-- C6 counterexample: on a text whose only break point is a space at
index 0, the literal spec reading breaks there while the code ignores index-0
break points and hard-cuts at the limit, so the two chunkings differ. -/
theorem c6_counterexample :
    chunk_message 50 c6input = [' ' :: List.replicate 49 'a', List.replicate 11 'a'] ∧
    specChunkMessage 50 c6input = [[], List.replicate 50 'a', List.replicate 10 'a'] ∧
    specChunkMessage 50 c6input ≠ chunk_message 50 c6input :=
  ⟨by decide, by decide, by decide⟩

/-- C6 (amended): a text within the limit is returned unchanged as one chunk;
otherwise the first chunk ends at the greatest positive-index double-newline,
else the greatest positive-index newline, else the greatest positive-index
space, else exactly at the limit when no positive-index break point exists
(an index-0 break point is ignored), and the remainder is trimmed of leading
whitespace before being chunked the same way. -/
theorem c6_chunking_algorithm_amended (maxLen : Nat) (msg : List Char) (hM : 1 ≤ maxLen) :
    (msg.length ≤ maxLen → chunk_message maxLen msg = [msg]) ∧
    (maxLen < msg.length →
      splitPointSpec (msg.take maxLen) maxLen (find_split_point (msg.take maxLen) maxLen) ∧
      chunk_message maxLen msg =
        msg.take (find_split_point (msg.take maxLen) maxLen) ::
          (if pyLstrip (msg.drop (find_split_point (msg.take maxLen) maxLen)) = [] then []
           else chunk_message maxLen
             (pyLstrip (msg.drop (find_split_point (msg.take maxLen) maxLen))))) :=
  ⟨fun h => by rw [chunk_message, if_pos h],
   fun h => ⟨find_split_point_sound _ _, chunk_message_unfold maxLen msg hM h⟩⟩

/-- Witness for C6 (amended) at limit 2 and the text "a bc". -/
theorem c6_witness :
    1 ≤ 2 ∧
    (("a bc".toList.length ≤ 2 → chunk_message 2 "a bc".toList = ["a bc".toList]) ∧
     (2 < "a bc".toList.length →
       splitPointSpec ("a bc".toList.take 2) 2 (find_split_point ("a bc".toList.take 2) 2) ∧
       chunk_message 2 "a bc".toList =
         "a bc".toList.take (find_split_point ("a bc".toList.take 2) 2) ::
           (if pyLstrip ("a bc".toList.drop (find_split_point ("a bc".toList.take 2) 2)) = []
            then []
            else chunk_message 2
              (pyLstrip ("a bc".toList.drop (find_split_point ("a bc".toList.take 2) 2)))))) :=
  ⟨by decide, c6_chunking_algorithm_amended 2 "a bc".toList (by decide)⟩

/-- C9 counterexample: on the empty input the chunker returns a single empty
chunk, refuting "every chunk in the returned list is non-empty" for every
input string. -/
theorem c9_counterexample :
    ¬ (∀ ck ∈ chunk_message 1 ([] : List Char), ck ≠ []) := by decide

/-- C9 (amended): for every limit at least 1, the chunking loop is
fuel-indifferent at any fuel of at least the text length (the loop
terminates, each iteration strictly shortening the remaining text), and every
returned chunk is non-empty whenever the input text is non-empty. -/
theorem c9_termination_nonempty_amended (maxLen : Nat) (hM : 1 ≤ maxLen) (msg : List Char) :
    (∀ fuel, msg.length ≤ fuel → chunkLoop maxLen fuel msg = chunkLoop maxLen msg.length msg) ∧
    (msg ≠ [] → ∀ ck ∈ chunk_message maxLen msg, ck ≠ []) := by
  constructor
  · intro fuel hf
    exact chunkLoop_fuel_congr maxLen hM fuel msg.length msg hf (le_refl _)
  · intro hmsg ck hck
    rw [chunk_message] at hck
    by_cases h : msg.length ≤ maxLen
    · rw [if_pos h] at hck
      simp at hck
      subst hck
      exact hmsg
    · rw [if_neg h] at hck
      exact chunkLoop_chunks_ne_nil maxLen hM msg.length msg ck hck

/-- Witness for C9 (amended) at limit 2 and the text "ab". -/
theorem c9_witness :
    1 ≤ 2 ∧
    ((∀ fuel, ("ab".toList).length ≤ fuel →
        chunkLoop 2 fuel "ab".toList = chunkLoop 2 ("ab".toList).length "ab".toList) ∧
     ("ab".toList ≠ [] → ∀ ck ∈ chunk_message 2 "ab".toList, ck ≠ [])) :=
  ⟨by decide, c9_termination_nonempty_amended 2 (by decide) "ab".toList⟩
